import Mathlib

/-!
Verification of the pinip terminal-screen model and foreground scheduler.

The screen operations are translated from src/terminalscreen/screen.go.
The cell / line / SGR data structures and the byte-level parser dispatch are
not part of the provided sources; those definitions are modelled from the
specification (spec.md sections 3, 4.1 and 6) and are marked as such.
-/

namespace Pinip

/-- The ESC byte 0x1B. -/
def esc : Char := Char.ofNat 27

/-- Modelled from the spec: the SGR category taxonomy of section 6
(sgr.go is not among the provided sources).  A new attribute in a category
evicts the prior attribute of the same category. -/
inductive SGRCategory where
  | foreground
  | background
  | intensity
  | italic
  | underline
  | blink
  | inverse
  | strike
deriving DecidableEq, Repr

/-- Modelled from the spec: a Select-Graphic-Rendition directive carries its
canonical CSI parameter list and the category it belongs to (`none` for a
bare reset, which belongs to no category). -/
structure SelectGraphicRenditionAttribute where
  params : List Nat
  category : Option SGRCategory
deriving DecidableEq, Repr

/-- Decimal digits of a natural number, as characters. -/
def natChars (n : Nat) : List Char := Nat.toDigits 10 n

/-- Modelled from the spec: semicolon-separated decimal parameter list of a CSI. -/
def csiParamChars (ps : List Nat) : List Char :=
  List.intercalate [Char.ofNat 59] (ps.map natChars)

/-- Modelled from the spec: `to_csi()` is the canonical byte form `ESC [ params m`. -/
def SelectGraphicRenditionAttribute.toCSI (a : SelectGraphicRenditionAttribute) : List Char :=
  [esc, Char.ofNat 91] ++ csiParamChars a.params ++ [Char.ofNat 109]

/-- Modelled from the spec: `is_unset_all` is true for a bare reset
(parameter 0 or an empty parameter list). -/
def SelectGraphicRenditionAttribute.isUnsetAll (a : SelectGraphicRenditionAttribute) : Bool :=
  a.params = [] ∨ a.params = [0]

/-- Modelled from the spec: insert an SGR into a list, replacing any prior SGR
of the same category. -/
def SelectGraphicRenditionAttribute.addToSGRAttributeList
    (a : SelectGraphicRenditionAttribute) (l : List SelectGraphicRenditionAttribute) :
    List SelectGraphicRenditionAttribute :=
  (l.filter (fun b => b.category ≠ a.category)) ++ [a]

/-- The byte form of `ESC [ 0 m`. -/
def resetCSI : List Char := [esc, Char.ofNat 91, Char.ofNat 48, Char.ofNat 109]

/-- Modelled from the spec: a cell holds a rune, the ordered SGR list in effect
when it was written, and an auxiliary string of unhandled escape sequences
replayed verbatim before the rune (character.go is not among the provided
sources).  The default cell is a space with empty SGR list and empty auxiliary. -/
structure Character where
  rune : Char := Char.ofNat 32
  sgr : List SelectGraphicRenditionAttribute := []
  extraEscapeSequences : List Char := []
deriving DecidableEq, Repr

/-- The default cell: a space with no SGRs and no auxiliary string. -/
def defaultCharacter : Character := {}

/-- Clear a cell's SGR list. -/
def Character.clearSGR (c : Character) : Character := { c with sgr := [] }

/-- Add one SGR to a cell's list under the category replacement rule. -/
def Character.addSGR (c : Character) (a : SelectGraphicRenditionAttribute) : Character :=
  { c with sgr := a.addToSGRAttributeList c.sgr }

/-- Modelled from the spec: a Line is an ordered sequence of Characters; reading
or writing at a position past the end extends the line with default cells
(line.go is not among the provided sources). -/
structure Line where
  characters : List Character := []
deriving DecidableEq, Repr

/-- A fresh empty line. -/
def NewLine : Line := {}

/-- Modelled from the spec: pad a line with default cells so that it has at
least `n` cells. -/
def Line.padTo (l : Line) (n : Nat) : Line :=
  ⟨l.characters ++ List.replicate (n - l.characters.length) defaultCharacter⟩

/-- Modelled from the spec: access the cell at index `x`, extending the line
with default cells up to `x` inclusive, and update it with `f`. -/
def Line.modifyAt (l : Line) (x : Nat) (f : Character → Character) : Line :=
  let p := l.padTo (x + 1)
  ⟨p.characters.set x (f (p.characters.getD x defaultCharacter))⟩

/-- Modelled from the spec: the length of a line once trailing default cells
are dropped (`lengthWithoutTrailingSpacesAndEmptyRunes` in the source; a
default cell is a space with no SGRs and no auxiliary). -/
def Line.lengthWithoutTrailingSpacesAndEmptyRunes (l : Line) : Int :=
  ((l.characters.reverse.dropWhile (fun c => c = defaultCharacter)).length : Int)

/-- The screen state of src/terminalscreen/screen.go.  The escape-sequence
parser sub-object holds no state relevant to the verified operations and is
omitted; machine integers are modelled as `Int`. -/
structure Screen where
  lines : List Line
  desiredWidth : Int
  maxHeight : Int
  positionX : Int
  positionY : Int
  Ended : Bool
  QueuedScrollbackOutput : List Char
  currentSGRs : Option (List SelectGraphicRenditionAttribute)
deriving DecidableEq, Repr

namespace Screen

/-- `NewScreen` from screen.go: one empty line, width and height coerced to be
at least 1, no SGRs selected (`nil` slice, modelled as `none`). -/
def NewScreen (width height : Int) : Screen :=
  { lines := [NewLine]
    desiredWidth := if width ≤ 0 then 1 else width
    maxHeight := if height ≤ 0 then 1 else height
    positionX := 0
    positionY := 0
    Ended := false
    QueuedScrollbackOutput := []
    currentSGRs := none }

/-- `Screen.Resize` from screen.go: the body is empty. -/
def Resize (s : Screen) (_width _height : Int) : Screen := s

/-- `Screen.currentLine` from screen.go: the line under the cursor. -/
def currentLine (s : Screen) : Line := s.lines.getD s.positionY.toNat NewLine

/-- `Screen.currentScreenHeight` from screen.go. -/
def currentScreenHeight (s : Screen) : Int := (s.lines.length : Int)

/-- `Screen.appendToScrollback` from screen.go. -/
def appendToScrollback (s : Screen) (str : List Char) : Screen :=
  { s with QueuedScrollbackOutput := s.QueuedScrollbackOutput ++ str }

/-- The per-cell loop of `Screen.sendLineToScrollbackBuffer` from screen.go,
carrying the previous cell's SGR list and the `didSetSGR` flag. -/
def sendLineAux (s : Screen) (prev : List SelectGraphicRenditionAttribute)
    (didSet : Bool) : List Character → Screen
  | [] => if didSet then s.appendToScrollback resetCSI else s
  | c :: rest =>
    let s1 := s.appendToScrollback c.extraEscapeSequences
    if c.sgr = prev then
      sendLineAux (s1.appendToScrollback [c.rune]) c.sgr didSet rest
    else
      let s2 := s1.appendToScrollback resetCSI
      let s3 := c.sgr.foldl (fun t a => t.appendToScrollback a.toCSI) s2
      sendLineAux (s3.appendToScrollback [c.rune]) c.sgr true rest

/-- `Screen.sendLineToScrollbackBuffer` from screen.go. -/
def sendLineToScrollbackBuffer (s : Screen) (line : Line) : Screen :=
  let s1 := if s.QueuedScrollbackOutput.length > 0
            then s.appendToScrollback [Char.ofNat 10] else s
  sendLineAux s1 [] false line.characters

/-- The byte form of `ESC [ <n> <dir>` used by `End` via `strconv.Itoa`. -/
def csiMove (n : Int) (dir : Char) : List Char :=
  [esc, Char.ofNat 91] ++ natChars n.toNat ++ [dir]

/-- The body of `Screen.End` from screen.go after the double-call guard:
emit every line, emit the two cursor-delta CSIs, clear `lines`. -/
def endBody (s : Screen) : Screen :=
  let s1 : Screen := { s with Ended := true }
  let s2 : Screen := s1.lines.foldl (fun t l => t.sendLineToScrollbackBuffer l) s1
  let moveRightBy : Int := s2.currentLine.lengthWithoutTrailingSpacesAndEmptyRunes - s2.positionX
  let s3 : Screen :=
    if moveRightBy > 0 then s2.appendToScrollback (csiMove moveRightBy (Char.ofNat 67))
    else if moveRightBy < 0 then s2.appendToScrollback (csiMove (-moveRightBy) (Char.ofNat 68))
    else s2
  let moveDownBy : Int := s3.currentScreenHeight - s3.positionY - 1
  let s4 : Screen :=
    if moveDownBy > 0 then s3.appendToScrollback (csiMove moveDownBy (Char.ofNat 66))
    else if moveDownBy < 0 then s3.appendToScrollback (csiMove (-moveDownBy) (Char.ofNat 65))
    else s3
  { s4 with lines := [] }

/-- `Screen.End` from screen.go: panics (modelled as `Except.error`) when the
screen has already ended. -/
def End (s : Screen) : Except String Screen :=
  if s.Ended then Except.error "Screen.End() called twice"
  else Except.ok s.endBody

/-- `Screen.nextLine` from screen.go. -/
def nextLine (s : Screen) : Screen :=
  let s1 := if s.positionY < s.currentScreenHeight - 1
            then { s with positionY := s.positionY + 1 }
            else { s with lines := s.lines ++ [NewLine] }
  if s1.currentScreenHeight > s1.maxHeight then
    let s2 := s1.sendLineToScrollbackBuffer (s1.lines.headD NewLine)
    { s2 with lines := s2.lines.drop 1 }
  else s1

/-- `Screen.prevLine` from screen.go. -/
def prevLine (s : Screen) : Screen :=
  if s.positionY ≤ 0 then s else { s with positionY := s.positionY - 1 }

/-- `Screen.nextCharacter` from screen.go. -/
def nextCharacter (s : Screen) : Screen := { s with positionX := s.positionX + 1 }

/-- `Screen.prevCharacter` from screen.go. -/
def prevCharacter (s : Screen) : Screen :=
  let x := s.positionX - 1
  { s with positionX := if x < 0 then 0 else x }

/-- `Screen.setCurrentCharacterTo` from screen.go: write a rune at the cursor,
clearing the cell's SGR list when no SGRs were ever selected (`nil`), and
otherwise merging each selected SGR into the cell's list. -/
def setCurrentCharacterTo (s : Screen) (r : Char) : Screen :=
  let update := fun (c : Character) =>
    let c1 := { c with rune := r }
    match s.currentSGRs with
    | none => c1.clearSGR
    | some l => l.foldl (fun c a => c.addSGR a) c1
  let newLines := s.lines.set s.positionY.toNat ((s.currentLine).modifyAt s.positionX.toNat update)
  { s with lines := newLines }

/-- `Screen.outNormalCharacter` from screen.go. -/
def outNormalCharacter (s : Screen) (b : Char) : Screen :=
  (s.setCurrentCharacterTo b).nextCharacter

/-- `Screen.outRelativeMoveCursorVertical` from screen.go: iterate `nextLine`
for positive arguments and `prevLine` for negative ones. -/
def outRelativeMoveCursorVertical (s : Screen) (howMany : Int) : Screen :=
  prevLine^[(-howMany).toNat] (nextLine^[howMany.toNat] s)

/-- `Screen.outRelativeMoveCursorHorizontal` from screen.go. -/
def outRelativeMoveCursorHorizontal (s : Screen) (howMany : Int) : Screen :=
  let x := s.positionX + howMany
  { s with positionX := if x < 0 then 0 else x }

/-- `Screen.outAbsoluteMoveCursorVertical` from screen.go. -/
def outAbsoluteMoveCursorVertical (s : Screen) (targetY : Int) : Screen :=
  s.outRelativeMoveCursorVertical (targetY - s.positionY)

/-- `Screen.outAbsoluteMoveCursorHorizontal` from screen.go. -/
def outAbsoluteMoveCursorHorizontal (s : Screen) (targetX : Int) : Screen :=
  { s with positionX := if targetX < 0 then 0 else targetX }

/-- The loop of `Screen.outDeleteLeft` from screen.go, with the iteration
count as fuel: move left (floored at 0), write a space, and break out of the
loop once the cursor sits on column 0. -/
def deleteLeftLoop (s : Screen) : Nat → Screen
  | 0 => s
  | n + 1 =>
    let s1 := (s.prevCharacter).setCurrentCharacterTo (Char.ofNat 32)
    if s1.positionX = 0 then s1 else deleteLeftLoop s1 n

/-- `Screen.outDeleteLeft` from screen.go. -/
def outDeleteLeft (s : Screen) (howMany : Int) : Screen :=
  s.deleteLeftLoop howMany.toNat

/-- `Screen.outUnhandledEscapeSequence` from screen.go: append the raw bytes to
the current cell's auxiliary string without moving the cursor. -/
def outUnhandledEscapeSequence (s : Screen) (seq : List Char) : Screen :=
  let newLines := s.lines.set s.positionY.toNat ((s.currentLine).modifyAt s.positionX.toNat
    (fun c => { c with extraEscapeSequences := c.extraEscapeSequences ++ seq }))
  { s with lines := newLines }

/-- `Screen.outSelectGraphicRenditionAttribute` from screen.go. -/
def outSelectGraphicRenditionAttribute (s : Screen)
    (sgr : SelectGraphicRenditionAttribute) : Screen :=
  if sgr.isUnsetAll then { s with currentSGRs := some [] }
  else { s with currentSGRs := some (sgr.addToSGRAttributeList (s.currentSGRs.getD [])) }

end Screen

/-- One screen operation, as dispatched to the Screen by the parser. -/
inductive ScreenOp where
  | normalChar (c : Char)
  | nextLine
  | prevLine
  | relMoveV (n : Int)
  | relMoveH (n : Int)
  | absMoveV (n : Int)
  | absMoveH (n : Int)
  | deleteLeft (n : Int)
  | sgr (a : SelectGraphicRenditionAttribute)
  | unhandled (seq : List Char)
deriving DecidableEq, Repr

/-- Apply one screen operation. -/
def applyOp (s : Screen) : ScreenOp → Screen
  | .normalChar c => s.outNormalCharacter c
  | .nextLine => s.nextLine
  | .prevLine => s.prevLine
  | .relMoveV n => s.outRelativeMoveCursorVertical n
  | .relMoveH n => s.outRelativeMoveCursorHorizontal n
  | .absMoveV n => s.outAbsoluteMoveCursorVertical n
  | .absMoveH n => s.outAbsoluteMoveCursorHorizontal n
  | .deleteLeft n => s.outDeleteLeft n
  | .sgr a => s.outSelectGraphicRenditionAttribute a
  | .unhandled seq => s.outUnhandledEscapeSequence seq

/-- Modelled from the spec: the parser dispatch of section 4.1 restricted to
the alphabet of printable runes plus newline (the parser file is not among
the provided sources): a printable rune is delivered as
`out_normal_character`, `\n` as `next_line()`. -/
def parserStep (s : Screen) (c : Char) : Screen :=
  if c = Char.ofNat 10 then s.nextLine else s.outNormalCharacter c

/-- Feed a byte stream of printable runes and newlines to the screen. -/
def advance (s : Screen) (input : List Char) : Screen :=
  input.foldl parserStep s

/-- A printable rune: a printable ASCII byte 0x20 to 0x7E, or a non-ASCII
Unicode scalar (spec section 4.1). -/
def PrintableRune (c : Char) : Prop :=
  (32 ≤ c.toNat ∧ c.toNat ≤ 126) ∨ 160 ≤ c.toNat

instance (c : Char) : Decidable (PrintableRune c) := by
  unfold PrintableRune; infer_instance

instance {e a : Type} [DecidableEq e] [DecidableEq a] : DecidableEq (Except e a)
  | .error x, .error y =>
    if h : x = y then .isTrue (by rw [h]) else .isFalse (by intro hc; cases hc; exact h rfl)
  | .error _, .ok _ => .isFalse (by intro hc; cases hc)
  | .ok _, .error _ => .isFalse (by intro hc; cases hc)
  | .ok x, .ok y =>
    if h : x = y then .isTrue (by rw [h]) else .isFalse (by intro hc; cases hc; exact h rfl)

/-- The pure byte stream produced by the per-cell loop of
`sendLineToScrollbackBuffer`, carrying the previous cell's SGR list and the
`didSetSGR` flag: per cell, the auxiliary bytes, then (on an SGR change) a
reset followed by the cell's SGRs as canonical CSIs, then the rune; finally a
reset if any SGR was ever set. -/
def lineBodyAux (prev : List SelectGraphicRenditionAttribute) (didSet : Bool) :
    List Character → List Char
  | [] => if didSet then resetCSI else []
  | c :: rest =>
    c.extraEscapeSequences ++
      (if c.sgr = prev then [c.rune] ++ lineBodyAux c.sgr didSet rest
       else resetCSI ++ (c.sgr.map SelectGraphicRenditionAttribute.toCSI).flatten
            ++ [c.rune] ++ lineBodyAux c.sgr true rest)

/-- The pure byte stream produced for the cells of one line. -/
def lineBody (l : Line) : List Char := lineBodyAux [] false l.characters

/-- The pure byte stream appended by `sendLineToScrollbackBuffer` when the
queued scrollback currently holds `q`: a newline exactly when `q` is
non-empty, then the line's cells. -/
def emitLineBytes (q : List Char) (l : Line) : List Char :=
  (if q.length > 0 then [Char.ofNat 10] else []) ++ lineBody l

/-- The pure byte stream appended by emitting a list of lines in order,
starting from queued scrollback `q`. -/
def emitLinesFrom (q : List Char) : List Line → List Char
  | [] => []
  | l :: ls => emitLineBytes q l ++ emitLinesFrom (q ++ emitLineBytes q l) ls

/-- The cursor-delta CSI bytes appended by `End`, as a function of the screen's
lines and cursor: the horizontal delta is the visible length of the line under
the cursor minus `cursor_x` (C when positive, D when negative), the vertical
delta is the line count minus `cursor_y` minus one (B when positive, A when
negative). -/
def endDeltas (lines : List Line) (posX posY : Int) : List Char :=
  let mr : Int := (lines.getD posY.toNat NewLine).lengthWithoutTrailingSpacesAndEmptyRunes - posX
  let hpart := if mr > 0 then Screen.csiMove mr (Char.ofNat 67)
               else if mr < 0 then Screen.csiMove (-mr) (Char.ofNat 68) else []
  let md : Int := (lines.length : Int) - posY - 1
  hpart ++ (if md > 0 then Screen.csiMove md (Char.ofNat 66)
            else if md < 0 then Screen.csiMove (-md) (Char.ofNat 65) else [])

lemma appendToScrollback_append (s : Screen) (a b : List Char) :
    (s.appendToScrollback a).appendToScrollback b = s.appendToScrollback (a ++ b) := by
  simp [Screen.appendToScrollback]

lemma appendToScrollback_nil (s : Screen) : s.appendToScrollback [] = s := by
  simp [Screen.appendToScrollback]

@[simp] lemma appendToScrollback_lines (s : Screen) (a : List Char) :
    (s.appendToScrollback a).lines = s.lines := rfl

@[simp] lemma appendToScrollback_positionX (s : Screen) (a : List Char) :
    (s.appendToScrollback a).positionX = s.positionX := rfl

@[simp] lemma appendToScrollback_positionY (s : Screen) (a : List Char) :
    (s.appendToScrollback a).positionY = s.positionY := rfl

@[simp] lemma appendToScrollback_maxHeight (s : Screen) (a : List Char) :
    (s.appendToScrollback a).maxHeight = s.maxHeight := rfl

@[simp] lemma appendToScrollback_desiredWidth (s : Screen) (a : List Char) :
    (s.appendToScrollback a).desiredWidth = s.desiredWidth := rfl

@[simp] lemma appendToScrollback_Ended (s : Screen) (a : List Char) :
    (s.appendToScrollback a).Ended = s.Ended := rfl

@[simp] lemma appendToScrollback_currentSGRs (s : Screen) (a : List Char) :
    (s.appendToScrollback a).currentSGRs = s.currentSGRs := rfl

@[simp] lemma appendToScrollback_queued (s : Screen) (a : List Char) :
    (s.appendToScrollback a).QueuedScrollbackOutput = s.QueuedScrollbackOutput ++ a := rfl

lemma foldl_appendCSI (s : Screen) (l : List SelectGraphicRenditionAttribute) :
    l.foldl (fun t a => t.appendToScrollback a.toCSI) s
      = s.appendToScrollback (l.map SelectGraphicRenditionAttribute.toCSI).flatten := by
  induction l generalizing s with
  | nil => simp [appendToScrollback_nil]
  | cons a rest ih => simp [ih, appendToScrollback_append]

lemma sendLineAux_eq (s : Screen) (prev : List SelectGraphicRenditionAttribute)
    (didSet : Bool) (cs : List Character) :
    Screen.sendLineAux s prev didSet cs = s.appendToScrollback (lineBodyAux prev didSet cs) := by
  induction cs generalizing s prev didSet with
  | nil =>
    by_cases h : didSet <;> simp [Screen.sendLineAux, lineBodyAux, h, appendToScrollback_nil]
  | cons c rest ih =>
    by_cases h : c.sgr = prev <;>
      simp [Screen.sendLineAux, lineBodyAux, h, ih, foldl_appendCSI, appendToScrollback_append]

lemma sendLine_eq (s : Screen) (l : Line) :
    s.sendLineToScrollbackBuffer l
      = s.appendToScrollback (emitLineBytes s.QueuedScrollbackOutput l) := by
  by_cases h : s.QueuedScrollbackOutput.length > 0 <;>
    simp [Screen.sendLineToScrollbackBuffer, emitLineBytes, lineBody, h,
      sendLineAux_eq, appendToScrollback_append, appendToScrollback_nil]

lemma foldl_sendLine_eq (s : Screen) (ls : List Line) :
    ls.foldl (fun t l => t.sendLineToScrollbackBuffer l) s
      = s.appendToScrollback (emitLinesFrom s.QueuedScrollbackOutput ls) := by
  induction ls generalizing s with
  | nil => simp [emitLinesFrom, appendToScrollback_nil]
  | cons l rest ih =>
    rw [List.foldl_cons, sendLine_eq, ih]
    simp [Screen.appendToScrollback, emitLinesFrom]

lemma moveAppend (t : Screen) (mr : Int) (c d : Char) :
    (if mr > 0 then t.appendToScrollback (Screen.csiMove mr c)
     else if mr < 0 then t.appendToScrollback (Screen.csiMove (-mr) d) else t)
      = t.appendToScrollback
          (if mr > 0 then Screen.csiMove mr c
           else if mr < 0 then Screen.csiMove (-mr) d else []) := by
  split_ifs <;> simp [appendToScrollback_nil]

lemma endBody_eq (s : Screen) :
    s.endBody = { s with
      Ended := true
      lines := []
      QueuedScrollbackOutput := s.QueuedScrollbackOutput
        ++ emitLinesFrom s.QueuedScrollbackOutput s.lines
        ++ endDeltas s.lines s.positionX s.positionY } := by
  simp only [Screen.endBody, foldl_sendLine_eq, moveAppend, appendToScrollback_append]
  simp [Screen.appendToScrollback, Screen.currentLine, Screen.currentScreenHeight,
    endDeltas, List.append_assoc]
  split_ifs <;> simp [List.append_assoc]

@[simp] lemma sendLine_lines (s : Screen) (l : Line) :
    (s.sendLineToScrollbackBuffer l).lines = s.lines := by rw [sendLine_eq]; rfl

@[simp] lemma sendLine_positionX (s : Screen) (l : Line) :
    (s.sendLineToScrollbackBuffer l).positionX = s.positionX := by rw [sendLine_eq]; rfl

@[simp] lemma sendLine_positionY (s : Screen) (l : Line) :
    (s.sendLineToScrollbackBuffer l).positionY = s.positionY := by rw [sendLine_eq]; rfl

@[simp] lemma sendLine_maxHeight (s : Screen) (l : Line) :
    (s.sendLineToScrollbackBuffer l).maxHeight = s.maxHeight := by rw [sendLine_eq]; rfl

@[simp] lemma sendLine_desiredWidth (s : Screen) (l : Line) :
    (s.sendLineToScrollbackBuffer l).desiredWidth = s.desiredWidth := by rw [sendLine_eq]; rfl

@[simp] lemma sendLine_Ended (s : Screen) (l : Line) :
    (s.sendLineToScrollbackBuffer l).Ended = s.Ended := by rw [sendLine_eq]; rfl

@[simp] lemma sendLine_currentSGRs (s : Screen) (l : Line) :
    (s.sendLineToScrollbackBuffer l).currentSGRs = s.currentSGRs := by rw [sendLine_eq]; rfl

@[simp] lemma setChar_linesLength (s : Screen) (r : Char) :
    (s.setCurrentCharacterTo r).lines.length = s.lines.length := by
  simp [Screen.setCurrentCharacterTo]

@[simp] lemma setChar_positionX (s : Screen) (r : Char) :
    (s.setCurrentCharacterTo r).positionX = s.positionX := rfl

@[simp] lemma setChar_positionY (s : Screen) (r : Char) :
    (s.setCurrentCharacterTo r).positionY = s.positionY := rfl

@[simp] lemma setChar_maxHeight (s : Screen) (r : Char) :
    (s.setCurrentCharacterTo r).maxHeight = s.maxHeight := rfl

@[simp] lemma setChar_desiredWidth (s : Screen) (r : Char) :
    (s.setCurrentCharacterTo r).desiredWidth = s.desiredWidth := rfl

@[simp] lemma setChar_Ended (s : Screen) (r : Char) :
    (s.setCurrentCharacterTo r).Ended = s.Ended := rfl

@[simp] lemma setChar_currentSGRs (s : Screen) (r : Char) :
    (s.setCurrentCharacterTo r).currentSGRs = s.currentSGRs := rfl

@[simp] lemma setChar_queued (s : Screen) (r : Char) :
    (s.setCurrentCharacterTo r).QueuedScrollbackOutput = s.QueuedScrollbackOutput := rfl

@[simp] lemma unhandled_linesLength (s : Screen) (seq : List Char) :
    (s.outUnhandledEscapeSequence seq).lines.length = s.lines.length := by
  simp [Screen.outUnhandledEscapeSequence]

@[simp] lemma unhandled_positionX (s : Screen) (seq : List Char) :
    (s.outUnhandledEscapeSequence seq).positionX = s.positionX := rfl

@[simp] lemma unhandled_positionY (s : Screen) (seq : List Char) :
    (s.outUnhandledEscapeSequence seq).positionY = s.positionY := rfl

@[simp] lemma unhandled_maxHeight (s : Screen) (seq : List Char) :
    (s.outUnhandledEscapeSequence seq).maxHeight = s.maxHeight := rfl

@[simp] lemma unhandled_desiredWidth (s : Screen) (seq : List Char) :
    (s.outUnhandledEscapeSequence seq).desiredWidth = s.desiredWidth := rfl

/-- The screen-state invariants of the spec (section 3): bounded height, cursor
containment, together with the coerced lower bound on the height budget. -/
def Inv (s : Screen) : Prop :=
  1 ≤ s.maxHeight ∧
  1 ≤ s.lines.length ∧
  (s.lines.length : Int) ≤ s.maxHeight ∧
  0 ≤ s.positionY ∧
  s.positionY < (s.lines.length : Int) ∧
  0 ≤ s.positionX

instance (s : Screen) : Decidable (Inv s) := by
  unfold Inv; infer_instance

/-- A predicate preserved by a step function is preserved by its iterates. -/
lemma iterate_pres {P : Screen → Prop} (f : Screen → Screen)
    (hf : ∀ t, P t → P (f t)) : ∀ (n : Nat) (t : Screen), P t → P (f^[n] t) := by
  intro n
  induction n with
  | zero => intro t ht; simpa using ht
  | succ k ih => intro t ht; rw [Function.iterate_succ_apply]; exact ih _ (hf _ ht)

lemma nextLine_Inv (s : Screen) (h : Inv s) : Inv s.nextLine := by
  obtain ⟨hm, h1, h2, h3, h4, h5⟩ := h
  unfold Screen.nextLine Screen.currentScreenHeight Inv
  by_cases hc : s.positionY < (s.lines.length : Int) - 1
  · rw [if_pos hc]
    rw [if_neg (by dsimp only; omega :
      ¬ (((({ s with positionY := s.positionY + 1 } : Screen).lines.length) : Int)
          > ({ s with positionY := s.positionY + 1 } : Screen).maxHeight))]
    refine ⟨?_, ?_, ?_, ?_, ?_, ?_⟩ <;> dsimp only <;> omega
  · rw [if_neg hc]
    by_cases he : ((({ s with lines := s.lines ++ [NewLine] } : Screen).lines.length : Int)
        > ({ s with lines := s.lines ++ [NewLine] } : Screen).maxHeight)
    · rw [if_pos he]
      refine ⟨?_, ?_, ?_, ?_, ?_, ?_⟩ <;> simp_all
    · rw [if_neg he]
      refine ⟨?_, ?_, ?_, ?_, ?_, ?_⟩ <;> simp_all <;> omega

lemma prevLine_Inv (s : Screen) (h : Inv s) : Inv s.prevLine := by
  obtain ⟨hm, h1, h2, h3, h4, h5⟩ := h
  unfold Screen.prevLine Inv
  split_ifs <;> refine ⟨?_, ?_, ?_, ?_, ?_, ?_⟩ <;> simp_all <;> omega

lemma setChar_Inv (s : Screen) (r : Char) (h : Inv s) : Inv (s.setCurrentCharacterTo r) := by
  obtain ⟨hm, h1, h2, h3, h4, h5⟩ := h
  exact ⟨by simpa using hm, by simpa using h1, by simpa using h2, by simpa using h3,
    by simpa using h4, by simpa using h5⟩

lemma deleteLeftLoop_Inv (n : Nat) : ∀ (s : Screen), Inv s → Inv (s.deleteLeftLoop n) := by
  induction n with
  | zero => intro s h; exact h
  | succ k ih =>
    intro s h
    have hprev : Inv s.prevCharacter := by
      obtain ⟨hm, h1, h2, h3, h4, h5⟩ := h
      unfold Screen.prevCharacter Inv
      refine ⟨?_, ?_, ?_, ?_, ?_, ?_⟩ <;> dsimp only <;> (try split_ifs) <;> omega
    have hset := setChar_Inv _ (Char.ofNat 32) hprev
    simp only [Screen.deleteLeftLoop]
    split_ifs with hc
    · exact hset
    · exact ih _ hset

lemma applyOp_Inv (s : Screen) (op : ScreenOp) (h : Inv s) : Inv (applyOp s op) := by
  cases op with
  | normalChar c =>
    have hset := setChar_Inv s c h
    obtain ⟨hm, h1, h2, h3, h4, h5⟩ := hset
    simp only [applyOp, Screen.outNormalCharacter, Screen.nextCharacter]
    exact ⟨by simpa using hm, by simpa using h1, by simpa using h2, by simpa using h3,
      by simpa using h4, by dsimp only; omega⟩
  | nextLine => exact nextLine_Inv s h
  | prevLine => exact prevLine_Inv s h
  | relMoveV n =>
    exact iterate_pres Screen.prevLine prevLine_Inv _ _
      (iterate_pres Screen.nextLine nextLine_Inv _ _ h)
  | relMoveH n =>
    obtain ⟨hm, h1, h2, h3, h4, h5⟩ := h
    simp only [applyOp, Screen.outRelativeMoveCursorHorizontal]
    refine ⟨?_, ?_, ?_, ?_, ?_, ?_⟩ <;> dsimp only <;> (try split_ifs) <;> omega
  | absMoveV n =>
    exact iterate_pres Screen.prevLine prevLine_Inv _ _
      (iterate_pres Screen.nextLine nextLine_Inv _ _ h)
  | absMoveH n =>
    obtain ⟨hm, h1, h2, h3, h4, h5⟩ := h
    simp only [applyOp, Screen.outAbsoluteMoveCursorHorizontal]
    refine ⟨?_, ?_, ?_, ?_, ?_, ?_⟩ <;> dsimp only <;> (try split_ifs) <;> omega
  | deleteLeft n => exact deleteLeftLoop_Inv _ _ h
  | sgr a =>
    obtain ⟨hm, h1, h2, h3, h4, h5⟩ := h
    simp only [applyOp, Screen.outSelectGraphicRenditionAttribute]
    split_ifs <;> exact ⟨hm, h1, h2, h3, h4, h5⟩
  | unhandled seq =>
    obtain ⟨hm, h1, h2, h3, h4, h5⟩ := h
    simp only [applyOp]
    exact ⟨by simpa using hm, by simpa using h1, by simpa using h2, by simpa using h3,
      by simpa using h4, by simpa using h5⟩

lemma NewScreen_Inv (w h : Int) : Inv (Screen.NewScreen w h) := by
  unfold Inv Screen.NewScreen
  split_ifs <;> refine ⟨?_, ?_, ?_, ?_, ?_, ?_⟩ <;> simp <;> omega

/-- The cell produced by writing a printable rune with no SGRs selected. -/
def mkCell (c : Char) : Character := { rune := c }

/-- The claimed per-session emission: a newline before every line except the
first one emitted in the session. -/
def emitLinesSessionClaim : Bool → List Line → List Char
  | _, [] => []
  | anyEmitted, l :: ls =>
    (if anyEmitted then [Char.ofNat 10] else []) ++ lineBody l ++ emitLinesSessionClaim true ls

/-- The cursor-delta CSIs the claim attributes to `End`: movements taking the
real cursor from the position after the last emitted line (one past the last
printed cell of the last line) to the screen's `(cursor_x, cursor_y)`. -/
def endDeltasClaim (lines : List Line) (posX posY : Int) : List Char :=
  let fromX : Int := (lines.getLastD NewLine).lengthWithoutTrailingSpacesAndEmptyRunes
  let dx : Int := posX - fromX
  let hpart := if dx > 0 then Screen.csiMove dx (Char.ofNat 67)
               else if dx < 0 then Screen.csiMove (-dx) (Char.ofNat 68) else []
  let dy : Int := posY - ((lines.length : Int) - 1)
  hpart ++ (if dy > 0 then Screen.csiMove dy (Char.ofNat 66)
            else if dy < 0 then Screen.csiMove (-dy) (Char.ofNat 65) else [])

/-- The loop of `delete_left` as the claim states it: decrement `cursor_x`
floored at 0, write a space at the new position, stop once column 0 is
reached. -/
def deleteLeftClaim (s : Screen) : Nat → Screen
  | 0 => s
  | n + 1 =>
    let s1 : Screen := { s with positionX := max 0 (s.positionX - 1) }
    let s2 := s1.setCurrentCharacterTo (Char.ofNat 32)
    if s2.positionX = 0 then s2 else deleteLeftClaim s2 n

/-- The promotion loop of `start` in src/main.go: each promoted child's exit
status is folded in with `max`, and with keep-going off the loop breaks as
soon as the running exit code is non-zero. -/
def startLoop (keepGoingOnError : Bool) (exitCode : Int) : List Int → Int
  | [] => exitCode
  | st :: rest =>
    let e := max exitCode st
    if keepGoingOnError = false ∧ e ≠ 0 then e else startLoop keepGoingOnError e rest

/-- The exit code returned by `start` for a given sequence of child exit
statuses in promotion order, starting from the zero-initialised `exitCode`. -/
def startExitCode (keepGoingOnError : Bool) (statuses : List Int) : Int :=
  startLoop keepGoingOnError 0 statuses

/-- The prefix of child exit statuses that actually get promoted by the loop
of `start` (all of them with keep-going on; up to and including the first
status that makes the exit code non-zero with keep-going off). -/
def promotedLoop (keepGoingOnError : Bool) (exitCode : Int) : List Int → List Int
  | [] => []
  | st :: rest =>
    st :: (if keepGoingOnError = false ∧ max exitCode st ≠ 0 then []
           else promotedLoop keepGoingOnError (max exitCode st) rest)

/-- The promoted statuses starting from the zero-initialised exit code. -/
def promotedStatuses (keepGoingOnError : Bool) (statuses : List Int) : List Int :=
  promotedLoop keepGoingOnError 0 statuses

lemma startLoop_promoted (ss : List Int) : ∀ (k : Bool) (acc : Int),
    startLoop k acc ss = (promotedLoop k acc ss).foldl max acc := by
  induction ss with
  | nil => intro k acc; rfl
  | cons st rest ih =>
    intro k acc
    simp only [startLoop, promotedLoop]
    split_ifs with hc
    · simp
    · simp [ih]

lemma startLoop_true (ss : List Int) : ∀ (acc : Int),
    startLoop true acc ss = ss.foldl max acc := by
  induction ss with
  | nil => intro acc; rfl
  | cons st rest ih => intro acc; simp [startLoop, ih]

lemma prevCharacter_eq_max (s : Screen) :
    s.prevCharacter = { s with positionX := max 0 (s.positionX - 1) } := by
  have : (if s.positionX - 1 < 0 then 0 else s.positionX - 1) = max 0 (s.positionX - 1) := by
    split_ifs <;> omega
  simp only [Screen.prevCharacter]
  rw [this]

lemma deleteLeftLoop_eq_claim (n : Nat) : ∀ (s : Screen),
    s.deleteLeftLoop n = deleteLeftClaim s n := by
  induction n with
  | zero => intro s; rfl
  | succ k ih =>
    intro s
    simp only [Screen.deleteLeftLoop, deleteLeftClaim, prevCharacter_eq_max]
    split_ifs
    · rfl
    · exact ih _

lemma deleteLeftLoop_currentSGRs (n : Nat) : ∀ (s : Screen),
    (s.deleteLeftLoop n).currentSGRs = s.currentSGRs := by
  induction n with
  | zero => intro s; rfl
  | succ k ih =>
    intro s
    simp only [Screen.deleteLeftLoop]
    split_ifs
    · rfl
    · rw [ih]; rfl

lemma nextLine_dims (s : Screen) :
    s.nextLine.maxHeight = s.maxHeight ∧ s.nextLine.desiredWidth = s.desiredWidth := by
  unfold Screen.nextLine Screen.currentScreenHeight
  by_cases hc : s.positionY < (s.lines.length : Int) - 1
  · rw [if_pos hc]; dsimp only; split_ifs <;> exact ⟨by simp, by simp⟩
  · rw [if_neg hc]; dsimp only; split_ifs <;> exact ⟨by simp, by simp⟩

lemma prevLine_dims (s : Screen) :
    s.prevLine.maxHeight = s.maxHeight ∧ s.prevLine.desiredWidth = s.desiredWidth := by
  unfold Screen.prevLine
  split_ifs <;> exact ⟨rfl, rfl⟩

lemma deleteLeftLoop_dims (n : Nat) : ∀ (s : Screen),
    (s.deleteLeftLoop n).maxHeight = s.maxHeight ∧
    (s.deleteLeftLoop n).desiredWidth = s.desiredWidth := by
  induction n with
  | zero => intro s; exact ⟨rfl, rfl⟩
  | succ k ih =>
    intro s
    simp only [Screen.deleteLeftLoop]
    split_ifs
    · exact ⟨rfl, rfl⟩
    · obtain ⟨h1, h2⟩ := ih ((s.prevCharacter).setCurrentCharacterTo (Char.ofNat 32))
      exact ⟨by rw [h1]; rfl, by rw [h2]; rfl⟩

lemma applyOp_dims (s : Screen) (op : ScreenOp) :
    (applyOp s op).maxHeight = s.maxHeight ∧ (applyOp s op).desiredWidth = s.desiredWidth := by
  cases op with
  | normalChar c => exact ⟨rfl, rfl⟩
  | nextLine => exact nextLine_dims s
  | prevLine => exact prevLine_dims s
  | relMoveV n =>
    have hnext : ∀ t : Screen,
        (t.maxHeight = s.maxHeight ∧ t.desiredWidth = s.desiredWidth) →
        ((t.nextLine).maxHeight = s.maxHeight ∧ (t.nextLine).desiredWidth = s.desiredWidth) := by
      intro t ht
      obtain ⟨hm2, hw2⟩ := nextLine_dims t
      exact ⟨hm2.trans ht.1, hw2.trans ht.2⟩
    have hprev : ∀ t : Screen,
        (t.maxHeight = s.maxHeight ∧ t.desiredWidth = s.desiredWidth) →
        ((t.prevLine).maxHeight = s.maxHeight ∧ (t.prevLine).desiredWidth = s.desiredWidth) := by
      intro t ht
      obtain ⟨hm2, hw2⟩ := prevLine_dims t
      exact ⟨hm2.trans ht.1, hw2.trans ht.2⟩
    exact iterate_pres Screen.prevLine hprev _ _
      (iterate_pres Screen.nextLine hnext _ _ ⟨rfl, rfl⟩)
  | relMoveH n => exact ⟨rfl, rfl⟩
  | absMoveV n =>
    have hnext : ∀ t : Screen,
        (t.maxHeight = s.maxHeight ∧ t.desiredWidth = s.desiredWidth) →
        ((t.nextLine).maxHeight = s.maxHeight ∧ (t.nextLine).desiredWidth = s.desiredWidth) := by
      intro t ht
      obtain ⟨hm2, hw2⟩ := nextLine_dims t
      exact ⟨hm2.trans ht.1, hw2.trans ht.2⟩
    have hprev : ∀ t : Screen,
        (t.maxHeight = s.maxHeight ∧ t.desiredWidth = s.desiredWidth) →
        ((t.prevLine).maxHeight = s.maxHeight ∧ (t.prevLine).desiredWidth = s.desiredWidth) := by
      intro t ht
      obtain ⟨hm2, hw2⟩ := prevLine_dims t
      exact ⟨hm2.trans ht.1, hw2.trans ht.2⟩
    exact iterate_pres Screen.prevLine hprev _ _
      (iterate_pres Screen.nextLine hnext _ _ ⟨rfl, rfl⟩)
  | absMoveH n => exact ⟨rfl, rfl⟩
  | deleteLeft n => exact deleteLeftLoop_dims _ _
  | sgr a =>
    simp only [applyOp, Screen.outSelectGraphicRenditionAttribute]
    split_ifs <;> exact ⟨rfl, rfl⟩
  | unhandled seq => exact ⟨rfl, rfl⟩

lemma set_append_last {A : Type} (cs : List A) (d x : A) :
    (cs ++ [d]).set cs.length x = cs ++ [x] := by
  induction cs with
  | nil => rfl
  | cons a t ih => simp [List.set, ih]

lemma getD_append_last {A : Type} (cs : List A) (d e : A) :
    (cs ++ [d]).getD cs.length e = d := by
  induction cs with
  | nil => rfl
  | cons a t ih => simp [ih]

lemma parserStep_printable (s : Screen) (cs : List Character) (p : Char)
    (hl : s.lines = [⟨cs⟩]) (hx : s.positionX = (cs.length : Int)) (hy : s.positionY = 0)
    (hs : s.currentSGRs = none) (hp : p ≠ Char.ofNat 10) :
    parserStep s p = { s with lines := [⟨cs ++ [mkCell p]⟩],
                              positionX := (cs.length : Int) + 1 } := by
  rw [parserStep, if_neg hp]
  simp only [Screen.outNormalCharacter, Screen.setCurrentCharacterTo, Screen.nextCharacter,
    Screen.currentLine, hs, hl, hx, hy, Line.modifyAt, Line.padTo]
  simp [set_append_last, getD_append_last, mkCell, Character.clearSGR, defaultCharacter]

lemma advance_printable (ps : List Char) : ∀ (s : Screen) (cs : List Character),
    s.lines = [⟨cs⟩] → s.positionX = (cs.length : Int) → s.positionY = 0 →
    s.currentSGRs = none → (∀ c ∈ ps, c ≠ Char.ofNat 10) →
    advance s ps = { s with lines := [⟨cs ++ ps.map mkCell⟩],
                            positionX := (cs.length : Int) + (ps.length : Int) } := by
  induction ps with
  | nil =>
    intro s cs hl hx hy hs _
    simp only [advance, List.foldl_nil, List.map_nil, List.append_nil]
    rw [← hl, ← hx]
    simp
  | cons p rest ih =>
    intro s cs hl hx hy hs hnl
    rw [advance, List.foldl_cons,
      parserStep_printable s cs p hl hx hy hs (hnl p (by simp))]
    rw [show List.foldl parserStep _ rest = advance _ rest from rfl]
    rw [ih _ (cs ++ [mkCell p]) (by simp) (by simp) (by simpa using hy) (by simpa using hs)
      (fun c hc => hnl c (by simp [hc]))]
    simp [List.append_assoc]
    omega

lemma lineBodyAux_plain (ps : List Char) : lineBodyAux [] false (ps.map mkCell) = ps := by
  induction ps with
  | nil => rfl
  | cons p rest ih => simp [lineBodyAux, mkCell, ih]

lemma lenVisible_plain (ps : List Char)
    (hlast : ∀ c, ps.getLast? = some c → c ≠ Char.ofNat 32) :
    (Line.mk (ps.map mkCell)).lengthWithoutTrailingSpacesAndEmptyRunes = (ps.length : Int) := by
  unfold Line.lengthWithoutTrailingSpacesAndEmptyRunes
  rcases hrev : ps.reverse with _ | ⟨c, rest⟩
  · have : ps = [] := by simpa using congrArg List.reverse hrev
    simp [this]
  · have hps : ps = (c :: rest).reverse := by
      rw [← hrev, List.reverse_reverse]
    have hlastc : ps.getLast? = some c := by
      rw [← List.head?_reverse, hrev]; rfl
    have hc : c ≠ Char.ofNat 32 := hlast c hlastc
    have hcell : ¬ (mkCell c = defaultCharacter) := by
      simpa [mkCell, defaultCharacter] using hc
    rw [← List.map_reverse, hrev]
    simp only [List.map_cons, List.dropWhile_cons]
    rw [if_neg (by simpa using hcell)]
    simp [hps]

lemma headD_append_of_ne_nil (ls : List Line) (h : ls ≠ []) :
    (ls ++ [NewLine]).headD NewLine = ls.headD NewLine := by
  cases ls with
  | nil => exact absurd rfl h
  | cons a t => rfl

/-- C1 counterexample: the input stream consisting of the single newline byte
lies in the claimed alphabet (printable runes plus newline), yet replaying it
through a fresh 80x24 Screen and calling end() queues the bytes `ESC [ 1 B`,
not the input stream: the concatenated scrollback differs from the input. -/
theorem newline_replay_counterexample :
    (∀ c ∈ [Char.ofNat 10], PrintableRune c ∨ c = Char.ofNat 10) ∧
    (Screen.End (advance (Screen.NewScreen 80 24) [Char.ofNat 10])).map
        Screen.QueuedScrollbackOutput ≠ Except.ok [Char.ofNat 10] ∧
    (Screen.End (advance (Screen.NewScreen 80 24) [Char.ofNat 10])).map
        Screen.QueuedScrollbackOutput
      = Except.ok [esc, Char.ofNat 91, Char.ofNat 49, Char.ofNat 66] := by
  refine ⟨by decide, by decide, by decide⟩

/-- C1 (amended): for an input stream of printable runes containing no newline
and not ending in a space, feeding the whole stream to a fresh Screen via
advance and then calling end() yields a scrollback byte stream equal to the
input. -/
theorem printable_replay_roundtrip (input : List Char) (w h : Int)
    (hp : ∀ c ∈ input, PrintableRune c ∧ c ≠ Char.ofNat 10)
    (hlast : ∀ c, input.getLast? = some c → c ≠ Char.ofNat 32) :
    (Screen.End (advance (Screen.NewScreen w h) input)).map Screen.QueuedScrollbackOutput
      = Except.ok input := by
  have hadv := advance_printable input (Screen.NewScreen w h) []
    rfl rfl rfl rfl (fun c hc => (hp c hc).2)
  rw [hadv, Screen.End, if_neg (by simp [Screen.NewScreen]), endBody_eq]
  simp only [Except.map]
  simp [Screen.NewScreen, emitLinesFrom, emitLineBytes, lineBody, lineBodyAux_plain,
    endDeltas, lenVisible_plain input hlast]

/-- Witness for C1: the concrete input stream "hi" replays to itself. -/
theorem printable_replay_roundtrip_witness :
    ((∀ c ∈ [Char.ofNat 104, Char.ofNat 105], PrintableRune c ∧ c ≠ Char.ofNat 10) ∧
     (∀ c, ([Char.ofNat 104, Char.ofNat 105] : List Char).getLast? = some c →
        c ≠ Char.ofNat 32)) ∧
    (Screen.End (advance (Screen.NewScreen 1 1) [Char.ofNat 104, Char.ofNat 105])).map
        Screen.QueuedScrollbackOutput = Except.ok [Char.ofNat 104, Char.ofNat 105] :=
  ⟨⟨by decide, by decide⟩,
    printable_replay_roundtrip [Char.ofNat 104, Char.ofNat 105] 1 1 (by decide) (by decide)⟩

/-- C2: starting from any NewScreen, after any sequence of screen operations
(normal character, next line, previous line, relative and absolute cursor
moves, delete-left, SGR selection, unhandled escape sequence) the state
satisfies 1 ≤ len(lines) ≤ max_height, 0 ≤ cursor_y < len(lines) and
0 ≤ cursor_x. -/
theorem screen_invariants_preserved (w h : Int) (ops : List ScreenOp) :
    Inv (ops.foldl applyOp (Screen.NewScreen w h)) := by
  have hfold : ∀ (l : List ScreenOp) (s : Screen), Inv s → Inv (l.foldl applyOp s) := by
    intro l
    induction l with
    | nil => intro s hs; exact hs
    | cons op rest ih => intro s hs; exact ih _ (applyOp_Inv s op hs)
  exact hfold ops _ (NewScreen_Inv w h)

/-- C3 counterexample: on a fresh Screen of max height 1 the cursor is on the
last line and appending makes the line count exceed max height, so the claim
demands that cursor_y be decremented (from 0 to -1); the code instead leaves
cursor_y at 0, pointing at the newly appended line. -/
theorem nextLine_no_decrement_counterexample :
    ¬ ((Screen.NewScreen 1 1).positionY
        < (((Screen.NewScreen 1 1).lines.length : Int) - 1)) ∧
    (((Screen.NewScreen 1 1).lines.length : Int) + 1 > (Screen.NewScreen 1 1).maxHeight) ∧
    ((Screen.NewScreen 1 1).nextLine).lines.length = 1 ∧
    ((Screen.NewScreen 1 1).nextLine).positionY = 0 ∧
    (Screen.NewScreen 1 1).positionY - 1 = -1 ∧
    ((Screen.NewScreen 1 1).nextLine).positionY ≠ (Screen.NewScreen 1 1).positionY - 1 := by
  refine ⟨by decide, by decide, by decide, by decide, by decide, by decide⟩

/-- C3 (amended): next_line() with the cursor on a non-last line increments
cursor_y; with the cursor on the last line it appends a new empty Line leaving
cursor_y unchanged, and whenever the line count then exceeds max_height it
emits lines[0] to scrollback and removes it, still leaving cursor_y
numerically unchanged (so the cursor then points at the newly appended
line rather than at the same logical line). -/
theorem nextLine_characterization (s : Screen) (h : Inv s) :
    (s.positionY < (s.lines.length : Int) - 1 →
       s.nextLine = { s with positionY := s.positionY + 1 }) ∧
    (¬ s.positionY < (s.lines.length : Int) - 1 →
       (s.nextLine).positionY = s.positionY ∧
       ((s.lines.length : Int) + 1 > s.maxHeight →
          (s.nextLine).lines = s.lines.drop 1 ++ [NewLine] ∧
          (s.nextLine).QueuedScrollbackOutput
            = s.QueuedScrollbackOutput
              ++ emitLineBytes s.QueuedScrollbackOutput (s.lines.headD NewLine)) ∧
       ((s.lines.length : Int) + 1 ≤ s.maxHeight →
          s.nextLine = { s with lines := s.lines ++ [NewLine] })) := by
  obtain ⟨hm, h1, h2, h3, h4, h5⟩ := h
  constructor
  · intro hc
    unfold Screen.nextLine Screen.currentScreenHeight
    rw [if_pos hc]
    dsimp only
    rw [if_neg (by omega)]
  · intro hc
    unfold Screen.nextLine Screen.currentScreenHeight
    rw [if_neg hc]
    dsimp only
    by_cases he : ((s.lines ++ [NewLine]).length : Int) > s.maxHeight
    · rw [if_pos he]
      have hlen : ((s.lines ++ [NewLine]).length : Int) = (s.lines.length : Int) + 1 := by
        simp
      refine ⟨by simp, fun _ => ⟨?_, ?_⟩, fun hle => absurd hle (by omega)⟩
      · simp only [sendLine_lines]
        rw [List.drop_append_of_le_length (by omega)]
      · rw [sendLine_eq]
        rw [headD_append_of_ne_nil s.lines (by intro hnil; simp [hnil] at h1)]
        rfl
    · rw [if_neg he]
      have hlen : ((s.lines ++ [NewLine]).length : Int) = (s.lines.length : Int) + 1 := by
        simp
      exact ⟨rfl, fun hgt => absurd hgt (by omega), fun _ => rfl⟩

/-- Witness for C3: the fresh 1x1 Screen satisfies the invariant; applying the
characterisation shows next_line leaves cursor_y unchanged there. -/
theorem nextLine_characterization_witness :
    Inv (Screen.NewScreen 1 1) ∧
    ((Screen.NewScreen 1 1).nextLine).positionY = (Screen.NewScreen 1 1).positionY :=
  ⟨by decide, ((nextLine_characterization (Screen.NewScreen 1 1) (by decide)).2
      (by decide)).1⟩

/-- C4 counterexample: a Screen holding the single line "ab" with the cursor
moved back to column 0 (as after a carriage return).  After emitting "ab" the
real cursor sits at column 2; taking it to the Screen cursor (column 0) would
require `ESC [ 2 D`, but end() emits `ESC [ 2 C` (the movement away from the
Screen cursor towards the end of the visible content), so the claimed
characterisation of the emitted deltas is false at this input. -/
theorem end_cursor_delta_counterexample :
    ((((Screen.NewScreen 80 24).outNormalCharacter (Char.ofNat 97)).outNormalCharacter
        (Char.ofNat 98)).outAbsoluteMoveCursorHorizontal 0).endBody.QueuedScrollbackOutput
      = [Char.ofNat 97, Char.ofNat 98] ++ Screen.csiMove 2 (Char.ofNat 67) ∧
    (((((Screen.NewScreen 80 24).outNormalCharacter (Char.ofNat 97)).outNormalCharacter
        (Char.ofNat 98)).outAbsoluteMoveCursorHorizontal 0).QueuedScrollbackOutput
      ++ emitLinesFrom
          ((((Screen.NewScreen 80 24).outNormalCharacter (Char.ofNat 97)).outNormalCharacter
            (Char.ofNat 98)).outAbsoluteMoveCursorHorizontal 0).QueuedScrollbackOutput
          ((((Screen.NewScreen 80 24).outNormalCharacter (Char.ofNat 97)).outNormalCharacter
            (Char.ofNat 98)).outAbsoluteMoveCursorHorizontal 0).lines
      ++ endDeltasClaim
          ((((Screen.NewScreen 80 24).outNormalCharacter (Char.ofNat 97)).outNormalCharacter
            (Char.ofNat 98)).outAbsoluteMoveCursorHorizontal 0).lines
          ((((Screen.NewScreen 80 24).outNormalCharacter (Char.ofNat 97)).outNormalCharacter
            (Char.ofNat 98)).outAbsoluteMoveCursorHorizontal 0).positionX
          ((((Screen.NewScreen 80 24).outNormalCharacter (Char.ofNat 97)).outNormalCharacter
            (Char.ofNat 98)).outAbsoluteMoveCursorHorizontal 0).positionY
      = [Char.ofNat 97, Char.ofNat 98] ++ Screen.csiMove 2 (Char.ofNat 68)) ∧
    [Char.ofNat 97, Char.ofNat 98] ++ Screen.csiMove 2 (Char.ofNat 67)
      ≠ [Char.ofNat 97, Char.ofNat 98] ++ Screen.csiMove 2 (Char.ofNat 68) := by
  refine ⟨by decide, by decide, by decide⟩

/-- C4 (amended): end() on a not-yet-ended Screen emits every remaining line
to scrollback in order, then emits the cursor-delta CSIs given by endDeltas
(horizontal: visible length of the line under the cursor minus cursor_x, C
when positive and D when negative; vertical: line count minus cursor_y minus
one, B when positive and A when negative — i.e. the movement from the
Screen's cursor towards the end of the content, not from the replay position
back to the cursor), then clears lines and sets the ended flag. -/
theorem end_characterization (s : Screen) (h : s.Ended = false) :
    Screen.End s = Except.ok { s with
      Ended := true
      lines := []
      QueuedScrollbackOutput := s.QueuedScrollbackOutput
        ++ emitLinesFrom s.QueuedScrollbackOutput s.lines
        ++ endDeltas s.lines s.positionX s.positionY } := by
  rw [Screen.End, if_neg (by simp [h]), endBody_eq]

/-- Witness for C4: the characterisation applied to a fresh 2x3 Screen. -/
theorem end_characterization_witness :
    (Screen.NewScreen 2 3).Ended = false ∧
    Screen.End (Screen.NewScreen 2 3) = Except.ok { Screen.NewScreen 2 3 with
      Ended := true
      lines := []
      QueuedScrollbackOutput := (Screen.NewScreen 2 3).QueuedScrollbackOutput
        ++ emitLinesFrom (Screen.NewScreen 2 3).QueuedScrollbackOutput
            (Screen.NewScreen 2 3).lines
        ++ endDeltas (Screen.NewScreen 2 3).lines (Screen.NewScreen 2 3).positionX
            (Screen.NewScreen 2 3).positionY } :=
  ⟨rfl, end_characterization (Screen.NewScreen 2 3) rfl⟩

/-- C5 counterexample: a Screen whose first line is empty and whose second
line is "a".  The first emitted line contributes no bytes, so when the second
line is emitted the queued scrollback is still empty and no newline is
prepended: end() produces "a", while the claim (newline before every line
that is not the first emitted in the session) predicts "\na". -/
theorem scrollback_newline_prepend_counterexample :
    ((((Screen.NewScreen 80 24).nextLine).nextLine).outNormalCharacter
        (Char.ofNat 97)).endBody.QueuedScrollbackOutput = [Char.ofNat 97] ∧
    emitLinesSessionClaim false
        ((((Screen.NewScreen 80 24).nextLine).nextLine).outNormalCharacter
          (Char.ofNat 97)).lines
      ++ endDeltas
          ((((Screen.NewScreen 80 24).nextLine).nextLine).outNormalCharacter
            (Char.ofNat 97)).lines
          ((((Screen.NewScreen 80 24).nextLine).nextLine).outNormalCharacter
            (Char.ofNat 97)).positionX
          ((((Screen.NewScreen 80 24).nextLine).nextLine).outNormalCharacter
            (Char.ofNat 97)).positionY
      = [Char.ofNat 10, Char.ofNat 97] ∧
    ([Char.ofNat 97] : List Char) ≠ [Char.ofNat 10, Char.ofNat 97] := by
  refine ⟨by decide, by decide, by decide⟩

/-- C5 (amended): emitting a line to scrollback appends exactly: a newline
when and only when the queued scrollback output is currently non-empty,
followed by the line's cells — per cell the auxiliary escape bytes verbatim,
then (only when the cell's SGR list differs from the previous cell's) a reset
`ESC [ 0 m` followed by the cell's SGRs in order as canonical CSIs, then the
cell's rune — followed by a final `ESC [ 0 m` exactly when some SGR was set
while emitting the line (this is the content of lineBody). -/
theorem sendLine_characterization (s : Screen) (l : Line) :
    s.sendLineToScrollbackBuffer l
      = { s with QueuedScrollbackOutput := s.QueuedScrollbackOutput
            ++ (if s.QueuedScrollbackOutput = [] then [] else [Char.ofNat 10])
            ++ lineBody l } := by
  rw [sendLine_eq]
  unfold emitLineBytes Screen.appendToScrollback
  by_cases hq : s.QueuedScrollbackOutput = []
  · simp [hq]
  · have : s.QueuedScrollbackOutput.length > 0 := by
      cases hqq : s.QueuedScrollbackOutput with
      | nil => exact absurd hqq hq
      | cons a t => simp [hqq]
    simp [hq, this]

/-- C6: end() may be called at most once: on a Screen that has not ended the
first call succeeds and sets the ended flag, and calling end() again on the
resulting Screen is a programmer-error defect (a panic, modelled as
Except.error). -/
theorem end_called_twice_errors (s : Screen) (h : s.Ended = false) :
    Screen.End s = Except.ok s.endBody ∧ (s.endBody).Ended = true ∧
    Screen.End s.endBody = Except.error "Screen.End() called twice" := by
  have hE : (s.endBody).Ended = true := by rw [endBody_eq]
  exact ⟨by rw [Screen.End, if_neg (by simp [h])],
    hE, by rw [Screen.End, if_pos (by simp [hE])]⟩

/-- Witness for C6 at a fresh 1x1 Screen. -/
theorem end_called_twice_errors_witness :
    (Screen.NewScreen 1 1).Ended = false ∧
    (Screen.End (Screen.NewScreen 1 1) = Except.ok (Screen.NewScreen 1 1).endBody ∧
     ((Screen.NewScreen 1 1).endBody).Ended = true ∧
     Screen.End (Screen.NewScreen 1 1).endBody
       = Except.error "Screen.End() called twice") :=
  ⟨rfl, end_called_twice_errors (Screen.NewScreen 1 1) rfl⟩

/-- C7: delete_left(n) equals the claimed loop — repeat up to n times:
decrement cursor_x floored at 0, write a space at the new position through the
ordinary cell write, stopping early once the cursor sits on column 0 — and it
never changes the screen's selected SGR state. -/
theorem deleteLeft_characterization (s : Screen) (n : Nat) :
    s.outDeleteLeft (n : Int) = deleteLeftClaim s n ∧
    (s.outDeleteLeft (n : Int)).currentSGRs = s.currentSGRs := by
  have ht : ((n : Int)).toNat = n := Int.toNat_natCast n
  unfold Screen.outDeleteLeft
  rw [ht]
  exact ⟨deleteLeftLoop_eq_claim n s, deleteLeftLoop_currentSGRs n s⟩

/-- C8: end() is deterministic and depends only on the listed state: two
not-yet-ended Screens agreeing on lines, cursor position, selected SGRs and
queued scrollback (but possibly differing in width and height limits) produce
identical queued scrollback outputs. -/
theorem end_deterministic (s1 s2 : Screen)
    (hl : s1.lines = s2.lines) (hx : s1.positionX = s2.positionX)
    (hy : s1.positionY = s2.positionY) (_hg : s1.currentSGRs = s2.currentSGRs)
    (hq : s1.QueuedScrollbackOutput = s2.QueuedScrollbackOutput)
    (h1 : s1.Ended = false) (h2 : s2.Ended = false) :
    Screen.End s1 = Except.ok s1.endBody ∧ Screen.End s2 = Except.ok s2.endBody ∧
    (s1.endBody).QueuedScrollbackOutput = (s2.endBody).QueuedScrollbackOutput := by
  refine ⟨by rw [Screen.End, if_neg (by simp [h1])],
    by rw [Screen.End, if_neg (by simp [h2])], ?_⟩
  rw [endBody_eq, endBody_eq]
  dsimp only
  rw [hl, hx, hy, hq]

/-- Witness for C8: two fresh Screens with different widths and heights agree
on the listed state and produce the same output. -/
theorem end_deterministic_witness :
    ((Screen.NewScreen 1 1).lines = (Screen.NewScreen 5 7).lines ∧
     (Screen.NewScreen 1 1).positionX = (Screen.NewScreen 5 7).positionX ∧
     (Screen.NewScreen 1 1).positionY = (Screen.NewScreen 5 7).positionY ∧
     (Screen.NewScreen 1 1).currentSGRs = (Screen.NewScreen 5 7).currentSGRs ∧
     (Screen.NewScreen 1 1).QueuedScrollbackOutput
       = (Screen.NewScreen 5 7).QueuedScrollbackOutput ∧
     (Screen.NewScreen 1 1).Ended = false ∧ (Screen.NewScreen 5 7).Ended = false) ∧
    ((Screen.NewScreen 1 1).endBody).QueuedScrollbackOutput
      = ((Screen.NewScreen 5 7).endBody).QueuedScrollbackOutput :=
  ⟨⟨rfl, rfl, rfl, rfl, rfl, rfl, rfl⟩,
    (end_deterministic (Screen.NewScreen 1 1) (Screen.NewScreen 5 7)
      rfl rfl rfl rfl rfl rfl rfl).2.2⟩

/-- C9: the scheduler's exit code over the promoted children is the running
maximum started at 0 — after each foreground promotion the exit code becomes
max(prior exit code, this child's exit status); with keep-going on, promoting
one more child takes the maximum of the prior exit code and its status. -/
theorem scheduler_exit_code_max :
    (∀ (keepGoingOnError : Bool) (statuses : List Int),
       startExitCode keepGoingOnError statuses
         = (promotedStatuses keepGoingOnError statuses).foldl max 0) ∧
    (∀ (statuses : List Int) (st : Int),
       startExitCode true (statuses ++ [st]) = max (startExitCode true statuses) st) := by
  constructor
  · intro k ss
    exact startLoop_promoted ss k 0
  · intro ss st
    unfold startExitCode
    rw [startLoop_true, startLoop_true, List.foldl_append]
    rfl

/-- C10: Resize is a no-op leaving the whole Screen unchanged, and no screen
operation ever changes the dimensions fixed at creation (max_height and
desired width). -/
theorem resize_frame :
    (∀ (s : Screen) (w h : Int), s.Resize w h = s) ∧
    (∀ (s : Screen) (op : ScreenOp),
       (applyOp s op).maxHeight = s.maxHeight ∧
       (applyOp s op).desiredWidth = s.desiredWidth) :=
  ⟨fun _ _ _ => rfl, fun s op => applyOp_dims s op⟩

end Pinip
